import Mathlib

/-!
Shallow embedding of the notion-productivity-template scripts
(`setup.py`, `add_metric.py`, `delete_metric.py`, `generate_heatmap.py`,
`generate_tracker.py`).

Dates are embedded as proleptic-Gregorian ordinals (day 1 = 0001-01-01,
exactly Python's `date.toordinal`); `timedelta` addition is `Nat`
addition on ordinals, `date.weekday()` is `(ordinal - 1) % 7` (Monday = 0,
since 0001-01-01 is a Monday).
-/

namespace Tracker

/-- Civil (year, month, day) from a Python date ordinal (day 1 = 0001-01-01),
via the standard era-based Gregorian algorithm on days since 0000-03-01. -/
def civilOfOrdinal (o : Nat) : Nat × Nat × Nat :=
  let z := o + 305
  let era := z / 146097
  let doe := z % 146097
  let yoe := (doe - doe / 1460 + doe / 36524 - doe / 146096) / 365
  let doy := doe - (365 * yoe + yoe / 4 - yoe / 100)
  let mp := (5 * doy + 2) / 153
  let d := doy - (153 * mp + 2) / 5 + 1
  let m := if mp < 10 then mp + 3 else mp - 9
  let y := era * 400 + yoe + (if m ≤ 2 then 1 else 0)
  (y, m, d)

/-- Python date ordinal of a civil (year, month, day), inverse of
`civilOfOrdinal` on the dates this repository touches (year ≥ 1). -/
def ordinalOfCivil (y m d : Nat) : Nat :=
  let y' := y - (if m ≤ 2 then 1 else 0)
  let era := y' / 400
  let yoe := y' % 400
  let doy := (153 * (if 2 < m then m - 3 else m + 9) + 2) / 5 + d - 1
  let doe := yoe * 365 + yoe / 4 - yoe / 100 + doy
  era * 146097 + doe - 305

/-- `date.year` of an ordinal. -/
def yearOf (o : Nat) : Nat := (civilOfOrdinal o).1

/-- `date.month` of an ordinal. -/
def monthOf (o : Nat) : Nat := (civilOfOrdinal o).2.1

/-- `date.day` of an ordinal. -/
def dayOf (o : Nat) : Nat := (civilOfOrdinal o).2.2

/-- `date.weekday()`: Monday = 0 … Sunday = 6. -/
def weekday (o : Nat) : Nat := (o - 1) % 7

/-- `DAY_NAMES` from the scripts. -/
def DAY_NAMES : List String := ["Mon", "Tue", "Wed", "Thu", "Fri", "Sat", "Sun"]

/-- `MONTHS` from the scripts. -/
def MONTHS : List String :=
  ["January", "February", "March", "April", "May", "June",
   "July", "August", "September", "October", "November", "December"]

/-- `strftime('%b')` month abbreviations, indexed by month number 1-12. -/
def monthAbbrev (m : Nat) : String :=
  match m with
  | 1 => "Jan" | 2 => "Feb" | 3 => "Mar" | 4 => "Apr" | 5 => "May" | 6 => "Jun"
  | 7 => "Jul" | 8 => "Aug" | 9 => "Sep" | 10 => "Oct" | 11 => "Nov" | 12 => "Dec"
  | _ => ""

/-- Zero-padding to two digits, Python's `f"{n:02d}"` for 0 ≤ n ≤ 99. -/
def pad2 (n : Nat) : String :=
  if n < 10 then "0" ++ toString n else toString n

/-- `strftime('%b %d')` of an ordinal. -/
def fmtBD (o : Nat) : String := monthAbbrev (monthOf o) ++ " " ++ pad2 (dayOf o)

/-- One week bucket as built by `get_weeks` in `setup.py` /
`generate_heatmap.py` (`add_metric.py` builds the same dict minus
`monday`/`sunday`/`days`). -/
structure Week where
  weekNum : Nat
  monday : Nat
  sunday : Nat
  monthNum : Nat
  monthName : String
  label : String
  days : List (String × Nat)
  weekKey : String
  deriving Repr, DecidableEq, Inhabited

/-- The `while True` loop body of `get_weeks`, with explicit fuel (the loop
terminates after at most 55 iterations for any year; fuel 100 is ample and
membership facts are fuel-independent). -/
def getWeeksAux (year : Nat) : Nat → Nat → Nat → List Week
  | 0, _, _ => []
  | fuel + 1, monday, weekNum =>
    let sunday := monday + 6
    if year < yearOf monday then
      []
    else
      let thursday := monday + 3
      let monthNum :=
        if yearOf thursday < year then 1
        else if year < yearOf thursday then 12
        else monthOf thursday
      let days := DAY_NAMES.enum.map (fun p => (p.2, monday + p.1))
      let w : Week :=
        { weekNum := weekNum
          monday := monday
          sunday := sunday
          monthNum := monthNum
          monthName := (MONTHS.getD (monthNum - 1) "")
          label := fmtBD monday ++ " - " ++ fmtBD sunday
          days := days
          weekKey := "W" ++ pad2 weekNum }
      w :: getWeeksAux year fuel (monday + 7) (weekNum + 1)

/-- `get_weeks(year)`: all Mon-Sun weeks starting at the Monday on/before
Jan 1, continuing while the Monday's year does not exceed `year`. -/
def get_weeks (year : Nat) : List Week :=
  let jan1 := ordinalOfCivil year 1 1
  let firstMonday := jan1 - weekday jan1
  getWeeksAux year 100 firstMonday 1

/-- A metric as passed to `populate_tracker` / `add_metric`
(`name`, `category`, `target` keys of the metric dicts). -/
structure Metric where
  name : String
  category : String
  target : Int
  deriving Repr, DecidableEq

/-- One page of the Weekly Tracker database, holding exactly the properties
that the scripts read or write: the `Metric` title rich-text contents, the
`Category` / `Month` / `Week` selects, the `Week Dates` rich text, the
checkbox properties as an association list keyed by property name, and the
`Weekly Target` / `Streak` numbers (absent or null modelled as `none`). -/
structure Page where
  metricTitle : List String
  category : Option String
  monthSel : Option String
  weekSel : Option String
  weekDates : Option String
  checkboxes : List (String × Bool)
  weeklyTarget : Option Int
  streak : Option Int
  deriving Repr, DecidableEq

/-- `props.get(key, {}).get("checkbox", False)` on a tracker page. -/
def Page.checkbox (p : Page) (key : String) : Bool :=
  ((p.checkboxes.find? (fun kv => kv.1 = key)).map (fun kv => kv.2)).getD false

/-- The page created by `notion.pages.create` in `populate_tracker`
(`setup.py`) and in `add_metric` (`add_metric.py`): title = metric name,
denormalized category, month / week selects from the week bucket, all seven
day checkboxes false, target copied unscaled, streak 0. -/
def createRecord (m : Metric) (w : Week) : Page :=
  { metricTitle := [m.name]
    category := some m.category
    monthSel := some w.monthName
    weekSel := some w.weekKey
    weekDates := some w.label
    checkboxes := DAY_NAMES.map (fun d => (d, false))
    weeklyTarget := some m.target
    streak := some 0 }

/-- The existing-key extraction pass of `populate_tracker`: every store page
with a non-empty `Metric` title and a present `Week` select contributes the
pair `(title[0] content, week select name)`. -/
def existingPairs (store : List Page) : List (String × String) :=
  store.filterMap (fun p =>
    match p.metricTitle, p.weekSel with
    | n :: _, some wk => some (n, wk)
    | _, _ => none)

/-- The `needed` list of `populate_tracker`: metric outer loop, week inner
loop, keeping the `(metric, week)` pairs whose key pair is absent from the
existing set. -/
def neededList (metrics : List Metric) (weeks : List Week) (store : List Page) :
    List (Metric × Week) :=
  metrics.flatMap (fun m =>
    weeks.filterMap (fun w =>
      if (m.name, w.weekKey) ∈ existingPairs store then none
      else some (m, w)))

/-- The pages created by one run of `populate_tracker` against `store`. -/
def createdPages (metrics : List Metric) (weeks : List Week) (store : List Page) :
    List Page :=
  (neededList metrics weeks store).map (fun mw => createRecord mw.1 mw.2)

/-- One run of the sync: the store after the run (no intervening external
mutation, so it is the old store plus the created pages) together with the
run's created-count. -/
def syncRun (metrics : List Metric) (weeks : List Week) (store : List Page) :
    List Page × Nat :=
  let created := createdPages metrics weeks store
  (store ++ created, created.length)

/-- The key pair a created page will contribute to a later existing-set scan. -/
def pairKey (mw : Metric × Week) : String × String := (mw.1.name, mw.2.weekKey)

theorem existingPairs_append (s t : List Page) :
    existingPairs (s ++ t) = existingPairs s ++ existingPairs t :=
  List.filterMap_append s t _

theorem existingPairs_createRecord (mws : List (Metric × Week)) :
    existingPairs (mws.map (fun mw => createRecord mw.1 mw.2)) = mws.map pairKey := by
  induction mws with
  | nil => rfl
  | cons hd tl ih =>
    simpa [existingPairs, createRecord, pairKey] using ih

theorem existingPairs_created (metrics : List Metric) (weeks : List Week)
    (store : List Page) :
    existingPairs (createdPages metrics weeks store) =
      (neededList metrics weeks store).map pairKey :=
  existingPairs_createRecord _

theorem pair_mem_after_sync {m : Metric} {w : Week} {metrics : List Metric}
    {weeks : List Week} (store : List Page) (hm : m ∈ metrics) (hw : w ∈ weeks) :
    (m.name, w.weekKey) ∈ existingPairs (syncRun metrics weeks store).1 := by
  unfold syncRun
  rw [existingPairs_append, existingPairs_created]
  by_cases h : (m.name, w.weekKey) ∈ existingPairs store
  · exact List.mem_append_left _ h
  · refine List.mem_append_right _ ?_
    refine List.mem_map.2 ⟨(m, w), ?_, rfl⟩
    unfold neededList
    refine List.mem_flatMap.2 ⟨m, hm, ?_⟩
    exact List.mem_filterMap.2 ⟨w, hw, by simp [h]⟩

/-- **C1.** Sync is idempotent: for every metric list, bucket list and store
state, with no intervening external mutation the store after the first run
is the old store plus the created pages, and the second run — which
recomputes the existing key set from that store and creates only the pairs
absent from it — has a created-count of 0. -/
theorem sync_idempotent (metrics : List Metric) (weeks : List Week)
    (store : List Page) :
    (syncRun metrics weeks (syncRun metrics weeks store).1).2 = 0 := by
  have hneed : neededList metrics weeks (syncRun metrics weeks store).1 = [] := by
    unfold neededList
    rw [List.flatMap_eq_nil_iff]
    intro m hm
    rw [List.filterMap_eq_nil_iff]
    intro w hw
    simp [pair_mem_after_sync store hm hw]
  have hstep : (syncRun metrics weeks (syncRun metrics weeks store).1).2
      = (createdPages metrics weeks (syncRun metrics weeks store).1).length := rfl
  rw [hstep]
  simp only [createdPages, hneed, List.map_nil, List.length_nil]

theorem filterMap_guard_sublist {α : Type} (c : α → Prop) [DecidablePred c]
    (l : List α) :
    List.Sublist (l.filterMap (fun a => if c a then none else some a)) l := by
  induction l with
  | nil => exact List.Sublist.refl _
  | cons hd tl ih =>
    by_cases h : c hd
    · simpa [h] using ih.cons hd
    · simpa [h] using ih.cons₂ hd

theorem needPairs_inner (m : Metric) (weeks : List Week) (store : List Page) :
    (weeks.filterMap (fun w =>
        if (m.name, w.weekKey) ∈ existingPairs store then none
        else some (m, w))).map pairKey =
      ((weeks.filterMap (fun w =>
          if (m.name, w.weekKey) ∈ existingPairs store then none
          else some w)).map Week.weekKey).map (fun k => (m.name, k)) := by
  simp only [List.map_filterMap, List.map_map]
  congr 1
  funext w
  by_cases h : (m.name, w.weekKey) ∈ existingPairs store <;> simp [h, pairKey]

theorem mem_needPairs {pr : String × String} {metrics : List Metric}
    {weeks : List Week} {store : List Page}
    (h : pr ∈ (neededList metrics weeks store).map pairKey) :
    pr ∉ existingPairs store := by
  rcases List.mem_map.1 h with ⟨mw, hmw, rfl⟩
  rcases List.mem_flatMap.1 hmw with ⟨m, _, hmem⟩
  rcases List.mem_filterMap.1 hmem with ⟨w, _, hval⟩
  by_cases hc : (m.name, w.weekKey) ∈ existingPairs store
  · simp [hc] at hval
  · simp [hc] at hval
    simpa [pairKey, ← hval] using hc

/-- **C2.** Uniqueness invariant: if each `(metric_name, bucket_key)` pair
occurs on at most one tracker page of the store, the metric names are
pairwise distinct and the bucket keys are pairwise distinct, then one sync
run creates pairwise-distinct key pairs, never creates a pair already
present in the store, and the store after the run still carries each pair on
at most one page. -/
theorem sync_preserves_uniqueness (metrics : List Metric) (weeks : List Week)
    (store : List Page)
    (hstore : (existingPairs store).Nodup)
    (hM : (metrics.map Metric.name).Nodup)
    (hW : (weeks.map Week.weekKey).Nodup) :
    ((neededList metrics weeks store).map pairKey).Nodup ∧
    (∀ pr ∈ existingPairs store,
        pr ∉ (neededList metrics weeks store).map pairKey) ∧
    (existingPairs (syncRun metrics weeks store).1).Nodup := by
  have hdisj : ∀ pr ∈ existingPairs store,
      pr ∉ (neededList metrics weeks store).map pairKey :=
    fun pr hpr hmem => mem_needPairs hmem hpr
  have hnodup : ((neededList metrics weeks store).map pairKey).Nodup := by
    unfold neededList
    rw [List.map_flatMap]
    rw [List.nodup_flatMap]
    constructor
    · intro m _
      rw [needPairs_inner]
      refine List.Nodup.map ?_ ?_
      · intro a b hab
        simpa using hab
      · refine List.Nodup.sublist ?_ hW
        exact (filterMap_guard_sublist
          (fun w => (m.name, w.weekKey) ∈ existingPairs store) weeks).map _
    · have hpw : metrics.Pairwise (fun a b => a.name ≠ b.name) := by
        rw [List.Nodup, List.pairwise_map] at hM
        exact hM
      refine hpw.imp ?_
      intro a b hab
      rw [Function.onFun, List.disjoint_left]
      intro pr hpra hprb
      rw [needPairs_inner] at hpra hprb
      rcases List.mem_map.1 hpra with ⟨k, _, rfl⟩
      rcases List.mem_map.1 hprb with ⟨k', _, hk'⟩
      have hba : b.name = a.name := congrArg Prod.fst hk'
      exact hab hba.symm
  refine ⟨hnodup, hdisj, ?_⟩
  show (existingPairs (store ++ createdPages metrics weeks store)).Nodup
  rw [existingPairs_append, existingPairs_created]
  exact hstore.append hnodup (List.disjoint_left.2 hdisj)

/-- Witness for `sync_preserves_uniqueness`: the default metric `Exercise`
synced into an empty store against the 2026 week list. -/
theorem sync_preserves_uniqueness_witness :
    (existingPairs ([] : List Page)).Nodup ∧
    (([⟨"Exercise", "Health", 5⟩] : List Metric).map Metric.name).Nodup ∧
    ((get_weeks 2026).map Week.weekKey).Nodup ∧
    (existingPairs
      (syncRun [⟨"Exercise", "Health", 5⟩] (get_weeks 2026) []).1).Nodup :=
  ⟨by decide, by decide, by decide,
    (sync_preserves_uniqueness [⟨"Exercise", "Health", 5⟩] (get_weeks 2026) []
      (by decide) (by decide) (by decide)).2.2⟩

/-- Modelled from the spec: the month-granularity target-scaling rule,
`monthly_target = round(weekly_target * days_in_month / 7)` and 0 when the
weekly target is 0. No month-granularity creation path exists in the
scripts (every tracker row the scripts create is a week-granularity row), so
this rule is taken from the spec's words. -/
def target_scaling (weekly_target days_in_month : ℕ) : ℤ :=
  if weekly_target = 0 then 0
  else round ((weekly_target * days_in_month : ℚ) / 7)

/-- **C3.** Target scaling: every page created by the week-granularity sync
carries its metric's weekly target copied unscaled, and the (spec-modelled)
month-granularity rule satisfies `target_scaling 7 31 = 31`,
`target_scaling 5 30 = 21`, and `target_scaling 0 d = 0` for every `d`. -/
theorem target_scaling_rule (metrics : List Metric) (weeks : List Week)
    (store : List Page) (p : Page)
    (hp : p ∈ createdPages metrics weeks store) :
    (∃ m ∈ metrics, p.metricTitle = [m.name] ∧ p.weeklyTarget = some m.target) ∧
    target_scaling 7 31 = 31 ∧ target_scaling 5 30 = 21 ∧
    ∀ d, target_scaling 0 d = 0 := by
  have h31 : target_scaling 7 31 = 31 := by
    have h7 : ((7 : ℚ) * 31) / 7 = ((31 : ℤ) : ℚ) := by norm_num
    simp [target_scaling, h7]
  have h21 : target_scaling 5 30 = 21 := by
    have h5 : target_scaling 5 30 = round ((150 : ℚ) / 7) := by
      norm_num [target_scaling]
    rw [h5, round_eq]
    have hq : (150 : ℚ) / 7 + 1 / 2 = 307 / 14 := by norm_num
    rw [hq, Int.floor_eq_iff]
    constructor <;> norm_num
  refine ⟨?_, h31, h21, fun d => by simp [target_scaling]⟩
  unfold createdPages at hp
  rcases List.mem_map.1 hp with ⟨mw, hmw, rfl⟩
  rcases List.mem_flatMap.1 hmw with ⟨m, hm, hmem⟩
  rcases List.mem_filterMap.1 hmem with ⟨w, _, hval⟩
  by_cases hc : (m.name, w.weekKey) ∈ existingPairs store
  · simp [hc] at hval
  · simp [hc] at hval
    cases hval
    exact ⟨m, hm, rfl, rfl⟩

/-- Witness for `target_scaling_rule`: the `Exercise` metric synced against
a single concrete week bucket. -/
theorem target_scaling_rule_witness :
    createRecord ⟨"Exercise", "Health", 5⟩
        ⟨1, 739614, 739620, 1, "January", "Dec 29 - Jan 04", [], "W01"⟩ ∈
      createdPages [⟨"Exercise", "Health", 5⟩]
        [⟨1, 739614, 739620, 1, "January", "Dec 29 - Jan 04", [], "W01"⟩] [] ∧
    ((∃ m ∈ ([⟨"Exercise", "Health", 5⟩] : List Metric),
        (createRecord ⟨"Exercise", "Health", 5⟩
          ⟨1, 739614, 739620, 1, "January", "Dec 29 - Jan 04", [], "W01"⟩).metricTitle
            = [m.name] ∧
        (createRecord ⟨"Exercise", "Health", 5⟩
          ⟨1, 739614, 739620, 1, "January", "Dec 29 - Jan 04", [], "W01"⟩).weeklyTarget
            = some m.target) ∧
      target_scaling 7 31 = 31 ∧ target_scaling 5 30 = 21 ∧
      ∀ d, target_scaling 0 d = 0) :=
  ⟨by decide,
    target_scaling_rule [⟨"Exercise", "Health", 5⟩]
      [⟨1, 739614, 739620, 1, "January", "Dec 29 - Jan 04", [], "W01"⟩] [] _
      (by decide)⟩

/-- Result of one underlying remote call attempt (the wrapped `func`):
it either returns a value or raises an exception carrying a message. -/
inductive CallResult (α : Type) where
  | ok : α → CallResult α
  | err : String → CallResult α
  deriving Repr, DecidableEq

/-- Does the first character list start with the second? -/
def listStartsWith : List Char → List Char → Bool
  | _, [] => true
  | [], _ => false
  | c :: cs, d :: ds => c == d && listStartsWith cs ds

/-- Does the first character list contain the second as a contiguous run? -/
def listContainsSub : List Char → List Char → Bool
  | _, [] => true
  | [], _ :: _ => false
  | c :: cs, sub => listStartsWith (c :: cs) sub || listContainsSub cs sub

/-- Python's substring test `sub in s`. -/
def strContains (s sub : String) : Bool := listContainsSub s.data sub.data

/-- The transient test of `api_call`:
`"502" in err_str or "429" in err_str or "503" in err_str`. -/
def isTransient (e : String) : Bool :=
  strContains e "502" || strContains e "429" || strContains e "503"

/-- Outcome of `api_call`: a returned result, a propagated exception, or the
`for` loop running out of range without returning (Python then returns
`None`; only reachable with `retries = 0`). -/
inductive ApiOutcome (α : Type) where
  | ok : α → ApiOutcome α
  | raised : String → ApiOutcome α
  | fellThrough : ApiOutcome α
  deriving Repr, DecidableEq

/-- The `for attempt in range(retries)` loop of `api_call` started at a given
attempt index, over an oracle `f` giving each attempt's result. Returns the
sleeps performed in seconds (the 0.4 s pacing sleep after a success, and the
`2 ** (attempt + 1)` backoff sleeps), the number of attempts performed, and
the outcome. -/
def api_call_from {α : Type} (f : Nat → CallResult α) (retries attempt : Nat) :
    List ℚ × Nat × ApiOutcome α :=
  if _h : attempt < retries then
    match f attempt with
    | .ok v => ([2 / 5], 1, .ok v)
    | .err e =>
      if h2 : attempt < retries - 1 ∧ isTransient e then
        let rest := api_call_from f retries (attempt + 1)
        (((2 : ℚ) ^ (attempt + 1)) :: rest.1, rest.2.1 + 1, rest.2.2)
      else ([], 1, .raised e)
  else ([], 0, .fellThrough)
termination_by retries - attempt
decreasing_by omega

/-- `api_call(func, retries=3)` over an attempt oracle. -/
def api_call {α : Type} (f : Nat → CallResult α) (retries : Nat := 3) :
    List ℚ × Nat × ApiOutcome α :=
  api_call_from f retries 0

theorem api_call_from_attempts_le {α : Type} (f : Nat → CallResult α) :
    ∀ n retries attempt, retries - attempt ≤ n →
      (api_call_from f retries attempt).2.1 ≤ retries - attempt := by
  intro n
  induction n with
  | zero =>
    intro retries attempt h
    rw [api_call_from]
    rw [dif_neg (by omega)]
    simp
  | succ n ih =>
    intro retries attempt h
    rw [api_call_from]
    by_cases hlt : attempt < retries
    · rw [dif_pos hlt]
      split
      · simpa using by omega
      · rename_i e heq
        by_cases h2 : attempt < retries - 1 ∧ isTransient e = true
        · rw [dif_pos h2]
          have hrec := ih retries (attempt + 1) (by omega)
          show (api_call_from f retries (attempt + 1)).2.1 + 1 ≤ retries - attempt
          omega
        · rw [dif_neg h2]
          simpa using by omega
    · rw [dif_neg hlt]
      simp

theorem api_call_from_ok {α : Type} (f : Nat → CallResult α)
    {retries attempt : Nat} (h : attempt < retries) {v : α}
    (hv : f attempt = .ok v) :
    api_call_from f retries attempt = ([2 / 5], 1, .ok v) := by
  rw [api_call_from, dif_pos h, hv]

theorem api_call_from_retry {α : Type} (f : Nat → CallResult α)
    {retries attempt : Nat} (h : attempt < retries) {e : String}
    (he : f attempt = .err e) (h2 : attempt < retries - 1)
    (ht : isTransient e = true) :
    api_call_from f retries attempt =
      ((2 : ℚ) ^ (attempt + 1) :: (api_call_from f retries (attempt + 1)).1,
       (api_call_from f retries (attempt + 1)).2.1 + 1,
       (api_call_from f retries (attempt + 1)).2.2) := by
  rw [api_call_from, dif_pos h, he]
  show (if _ : attempt < retries - 1 ∧ isTransient e = true then
      let rest := api_call_from f retries (attempt + 1)
      (((2 : ℚ) ^ (attempt + 1)) :: rest.1, rest.2.1 + 1, rest.2.2)
    else ([], 1, ApiOutcome.raised e)) = _
  rw [dif_pos ⟨h2, ht⟩]

theorem api_call_from_raise {α : Type} (f : Nat → CallResult α)
    {retries attempt : Nat} (h : attempt < retries) {e : String}
    (he : f attempt = .err e)
    (h2 : ¬(attempt < retries - 1 ∧ isTransient e = true)) :
    api_call_from f retries attempt = ([], 1, .raised e) := by
  rw [api_call_from, dif_pos h, he]
  show (if _ : attempt < retries - 1 ∧ isTransient e = true then
      let rest := api_call_from f retries (attempt + 1)
      (((2 : ℚ) ^ (attempt + 1)) :: rest.1, rest.2.1 + 1, rest.2.2)
    else ([], 1, ApiOutcome.raised e)) = _
  rw [dif_neg h2]

/-- **C4.** Retry policy of `api_call` with `retries = 3`: at most 3 attempts
are made; an immediate success is returned unchanged after only the 0.4 s
pacing sleep; a non-transient failure on the first attempt propagates with no
retry sleep; transient failures on attempts 1 and 2 followed by a success
sleep 2 s then 4 s and return the successful result; and a failure on the
final attempt propagates immediately with no further backoff sleep. -/
theorem retry_policy {α : Type} (f : Nat → CallResult α) :
    ((api_call f 3).2.1 ≤ 3) ∧
    (∀ v, f 0 = .ok v → api_call f 3 = ([2 / 5], 1, .ok v)) ∧
    (∀ e, f 0 = .err e → isTransient e = false →
      api_call f 3 = ([], 1, .raised e)) ∧
    (∀ e₀ e₁ v, f 0 = .err e₀ → isTransient e₀ = true →
      f 1 = .err e₁ → isTransient e₁ = true → f 2 = .ok v →
      api_call f 3 = ([2, 4, 2 / 5], 3, .ok v)) ∧
    (∀ e₀ e₁ e₂, f 0 = .err e₀ → isTransient e₀ = true →
      f 1 = .err e₁ → isTransient e₁ = true → f 2 = .err e₂ →
      api_call f 3 = ([2, 4], 3, .raised e₂)) := by
  refine ⟨?_, ?_, ?_, ?_, ?_⟩
  · exact le_trans (api_call_from_attempts_le f 3 3 0 (by omega)) (by omega)
  · intro v hv
    rw [api_call, api_call_from_ok f (by norm_num) hv]
  · intro e he htr
    rw [api_call, api_call_from_raise f (by norm_num) he (by simp [htr])]
  · intro e₀ e₁ v h0 ht0 h1 ht1 h2
    rw [api_call, api_call_from_retry f (by norm_num) h0 (by norm_num) ht0,
      api_call_from_retry f (by norm_num) h1 (by norm_num) ht1,
      api_call_from_ok f (by norm_num) h2]
    norm_num
  · intro e₀ e₁ e₂ h0 ht0 h1 ht1 h2
    rw [api_call, api_call_from_retry f (by norm_num) h0 (by norm_num) ht0,
      api_call_from_retry f (by norm_num) h1 (by norm_num) ht1,
      api_call_from_raise f (by norm_num) h2 (by omega)]
    norm_num

/-- Witness for `retry_policy`: a call failing with HTTP 429 on the first two
attempts and succeeding on the third. -/
theorem retry_policy_witness :
    isTransient "HTTP 429 Too Many Requests" = true ∧
    api_call (fun n => if n < 2
        then CallResult.err "HTTP 429 Too Many Requests"
        else CallResult.ok 42) 3
      = ([2, 4, 2 / 5], 3, ApiOutcome.ok 42) :=
  ⟨by decide,
    (retry_policy (fun n => if n < 2
        then CallResult.err "HTTP 429 Too Many Requests"
        else CallResult.ok 42)).2.2.2.1
      "HTTP 429 Too Many Requests" "HTTP 429 Too Many Requests" 42
      (by decide) (by decide) (by decide) (by decide) (by decide)⟩

theorem dayNames_enum : DAY_NAMES.enum =
    [(0, "Mon"), (1, "Tue"), (2, "Wed"), (3, "Thu"),
     (4, "Fri"), (5, "Sat"), (6, "Sun")] := by decide

theorem getWeeksAux_owning_month (year : Nat) :
    ∀ (fuel monday weekNum : Nat) (w : Week),
      w ∈ getWeeksAux year fuel monday weekNum →
      ("Thu", w.monday + 3) ∈ w.days ∧
      w.monthNum =
        (if yearOf (w.monday + 3) < year then 1
         else if year < yearOf (w.monday + 3) then 12
         else monthOf (w.monday + 3)) ∧
      w.monthName = MONTHS.getD (w.monthNum - 1) "" := by
  intro fuel
  induction fuel with
  | zero =>
    intro monday weekNum w hw
    simp [getWeeksAux] at hw
  | succ n ih =>
    intro monday weekNum w hw
    rw [getWeeksAux] at hw
    by_cases hy : year < yearOf monday
    · rw [if_pos hy] at hw
      simp at hw
    · rw [if_neg hy] at hw
      rcases List.mem_cons.1 hw with h | h
      · subst h
        refine ⟨?_, rfl, rfl⟩
        rw [dayNames_enum]
        simp
      · exact ih _ _ w h

/-- **C6.** Owning-month rule: every week bucket produced for a year carries
its Thursday (day-name `"Thu"`, ordinal monday + 3) among its member days,
its owning month number is the calendar month of that Thursday — clamped to
January when the Thursday's year is below the target year and to December
when it is above — and its month name is the corresponding entry of
`MONTHS`. -/
theorem owning_month_rule (year : Nat) (w : Week) (hw : w ∈ get_weeks year) :
    ("Thu", w.monday + 3) ∈ w.days ∧
    w.monthNum =
      (if yearOf (w.monday + 3) < year then 1
       else if year < yearOf (w.monday + 3) then 12
       else monthOf (w.monday + 3)) ∧
    w.monthName = MONTHS.getD (w.monthNum - 1) "" :=
  getWeeksAux_owning_month year 100 _ 1 w hw

set_option maxRecDepth 100000 in
/-- Witness for `owning_month_rule`: the first 2026 week bucket (whose
Thursday is Jan 1, 2026, so its owning month is January). -/
theorem owning_month_rule_witness :
    ((get_weeks 2026).headI ∈ get_weeks 2026) ∧
    (get_weeks 2026).headI.monthNum =
      (if yearOf ((get_weeks 2026).headI.monday + 3) < 2026 then 1
       else if 2026 < yearOf ((get_weeks 2026).headI.monday + 3) then 12
       else monthOf ((get_weeks 2026).headI.monday + 3)) :=
  ⟨by decide, (owning_month_rule 2026 (get_weeks 2026).headI (by decide)).2.1⟩

set_option maxRecDepth 100000 in
/-- **C5.** Week bucket coverage for 2026: `get_weeks 2026` yields 53 weeks;
the first week's Monday is the Monday on or before Jan 1 (ordinal 739614,
i.e. 2025-12-29, with Jan 1 = 739617); successive Mondays are spaced exactly
7 days apart (hence strictly increasing); the keys are `"W"` plus the
zero-padded sequential number starting at 1; the member days of the weeks
cover every one of the 365 days from Jan 1 to Dec 31, 2026; and every week
other than the first and the last has all its member days inside 2026. -/
theorem week_bucket_coverage_2026 :
    (get_weeks 2026).length = 53 ∧
    ((get_weeks 2026).head?.map Week.monday) =
      some (ordinalOfCivil 2026 1 1 - weekday (ordinalOfCivil 2026 1 1)) ∧
    ((get_weeks 2026).head?.map Week.monday) = some 739614 ∧
    weekday 739614 = 0 ∧
    739614 ≤ ordinalOfCivil 2026 1 1 ∧ ordinalOfCivil 2026 1 1 < 739614 + 7 ∧
    (((get_weeks 2026).zip ((get_weeks 2026).drop 1)).all
      (fun ab => ab.2.monday = ab.1.monday + 7) = true) ∧
    (get_weeks 2026).map Week.weekKey =
      (List.range 53).map (fun i => "W" ++ pad2 (i + 1)) ∧
    ordinalOfCivil 2026 12 31 = ordinalOfCivil 2026 1 1 + 364 ∧
    ((List.range 365).all (fun i => (get_weeks 2026).any
      (fun w => w.days.any (fun kv => kv.2 = ordinalOfCivil 2026 1 1 + i)))
      = true) ∧
    ((((get_weeks 2026).drop 1).dropLast).all
      (fun w => w.days.all (fun kv => yearOf kv.2 = 2026)) = true) := by
  decide

/-- Python's `round` to an integer on exact rational values: nearest
integer, with ties going to the even neighbour (banker's rounding). -/
def roundHalfEven (q : ℚ) : ℤ :=
  if Int.fract q < 1 / 2 then ⌊q⌋
  else if 1 / 2 < Int.fract q then ⌊q⌋ + 1
  else if ⌊q⌋ % 2 = 0 then ⌊q⌋ else ⌊q⌋ + 1

/-- Python's `round(x, 1)` on exact rational values: scale by ten, round
half to even, scale back. -/
def round1 (q : ℚ) : ℚ := (roundHalfEven (q * 10) : ℚ) / 10

/-- `days[day_name]` lookup in a week's member-day mapping (the mapping
always carries all seven day names, so the default is never reached). -/
def lookupDay (days : List (String × Nat)) (dn : String) : Nat :=
  ((days.find? (fun kv => kv.1 = dn)).map (fun kv => kv.2)).getD 0

/-- Inner loop body of `compute_daily_scores`: one page, one day name.
Days outside the target year are skipped; otherwise the date's total counter
is bumped and, when the page's checkbox for that day name is set, so is the
completed counter. The accumulator is the pair
`(daily_total, daily_completed)` of date-keyed counters. -/
def processDay (yr : Nat) (days : List (String × Nat)) (p : Page)
    (acc : (Nat → Nat) × (Nat → Nat)) (dn : String) :
    (Nat → Nat) × (Nat → Nat) :=
  let dd := lookupDay days dn
  if yearOf dd ≠ yr then acc
  else
    (fun x => if x = dd then acc.1 x + 1 else acc.1 x,
     if p.checkbox dn
       then (fun x => if x = dd then acc.2 x + 1 else acc.2 x)
       else acc.2)

/-- Per-page loop body of `compute_daily_scores`: pages without a `Week`
select, or whose week key is not among the year's weeks, are skipped
(`get_weeks`' keys are pairwise distinct, so the `week_day_map` dict lookup
is the first match). -/
def processPage (yr : Nat) (weeks : List Week)
    (acc : (Nat → Nat) × (Nat → Nat)) (p : Page) :
    (Nat → Nat) × (Nat → Nat) :=
  match p.weekSel with
  | none => acc
  | some wk =>
    match weeks.find? (fun w => w.weekKey = wk) with
    | none => acc
    | some w => DAY_NAMES.foldl (processDay yr w.days p) acc

/-- The `(daily_total, daily_completed)` counters of `compute_daily_scores`
after the page loop. -/
def dailyCounters (yr : Nat) (pages : List Page) (weeks : List Week) :
    (Nat → Nat) × (Nat → Nat) :=
  pages.foldl (processPage yr weeks) (fun _ => 0, fun _ => 0)

/-- `compute_daily_scores` as a date-keyed partial map: a date is present
with value `round(completed / total * 100, 1)` exactly when its total
counter is positive (the `scores` dict is keyed by the keys of
`daily_total`). -/
def compute_daily_scores (yr : Nat) (pages : List Page) (weeks : List Week)
    (d : Nat) : Option ℚ :=
  let c := dailyCounters yr pages weeks
  if 0 < c.1 d then some (round1 ((c.2 d : ℚ) / (c.1 d : ℚ) * 100)) else none

/-- Specification-side count: how many day-name columns of one page fall on
date `d` of the target year. -/
def pageTotal (yr : Nat) (weeks : List Week) (p : Page) (d : Nat) : Nat :=
  match p.weekSel with
  | none => 0
  | some wk =>
    match weeks.find? (fun w => w.weekKey = wk) with
    | none => 0
    | some w => DAY_NAMES.countP (fun dn =>
        (lookupDay w.days dn == d) && (yearOf (lookupDay w.days dn) == yr))

/-- Specification-side count: how many checked day-name columns of one page
fall on date `d` of the target year. -/
def pageCompleted (yr : Nat) (weeks : List Week) (p : Page) (d : Nat) : Nat :=
  match p.weekSel with
  | none => 0
  | some wk =>
    match weeks.find? (fun w => w.weekKey = wk) with
    | none => 0
    | some w => DAY_NAMES.countP (fun dn =>
        (lookupDay w.days dn == d) && (yearOf (lookupDay w.days dn) == yr)
          && p.checkbox dn)

theorem roundHalfEven_intCast (z : ℤ) : roundHalfEven ((z : ℚ)) = z := by
  unfold roundHalfEven
  rw [Int.fract_intCast]
  norm_num

theorem round1_half_to_even : round1 (25 / 4) = 31 / 5 := by
  have hq : ((25 : ℚ) / 4) * 10 = 125 / 2 := by norm_num
  have hf : ⌊(125 : ℚ) / 2⌋ = 62 := by
    rw [Int.floor_eq_iff]
    constructor <;> norm_num
  have hfr : Int.fract ((125 : ℚ) / 2) = 1 / 2 := by
    unfold Int.fract
    rw [hf]
    norm_num
  rw [round1, hq, roundHalfEven, hfr, hf]
  norm_num

theorem foldl_processDay_total (yr : Nat) (days : List (String × Nat))
    (p : Page) (l : List String) :
    ∀ (acc : (Nat → Nat) × (Nat → Nat)) (d : Nat),
      (l.foldl (processDay yr days p) acc).1 d
        = acc.1 d + l.countP (fun dn =>
            (lookupDay days dn == d) && (yearOf (lookupDay days dn) == yr)) := by
  induction l with
  | nil => intro acc d; simp
  | cons hd tl ih =>
    intro acc d
    rw [List.foldl_cons, ih, List.countP_cons]
    unfold processDay
    by_cases hy : yearOf (lookupDay days hd) ≠ yr
    · rw [if_pos hy]
      have hp : ((lookupDay days hd == d)
          && (yearOf (lookupDay days hd) == yr)) = false := by
        simp only [Bool.and_eq_false_iff, beq_eq_false_iff_ne]
        right
        exact hy
      rw [hp]
      simp
    · rw [if_neg hy]
      push_neg at hy
      by_cases hx : d = lookupDay days hd
      · have hp : ((lookupDay days hd == d)
            && (yearOf (lookupDay days hd) == yr)) = true := by
          simp [hx, hy]
        rw [hp]
        simp [hx]
        omega
      · have hp : ((lookupDay days hd == d)
            && (yearOf (lookupDay days hd) == yr)) = false := by
          simp [Ne.symm hx]
        rw [hp]
        simp [hx]

theorem foldl_processDay_completed (yr : Nat) (days : List (String × Nat))
    (p : Page) (l : List String) :
    ∀ (acc : (Nat → Nat) × (Nat → Nat)) (d : Nat),
      (l.foldl (processDay yr days p) acc).2 d
        = acc.2 d + l.countP (fun dn =>
            (lookupDay days dn == d) && (yearOf (lookupDay days dn) == yr)
              && p.checkbox dn) := by
  induction l with
  | nil => intro acc d; simp
  | cons hd tl ih =>
    intro acc d
    rw [List.foldl_cons, ih, List.countP_cons]
    unfold processDay
    by_cases hy : yearOf (lookupDay days hd) ≠ yr
    · rw [if_pos hy]
      have hp : ((lookupDay days hd == d)
          && (yearOf (lookupDay days hd) == yr) && p.checkbox hd) = false := by
        simp only [Bool.and_eq_false_iff, Bool.and_eq_false_iff,
          beq_eq_false_iff_ne]
        left
        right
        exact hy
      rw [hp]
      simp
    · rw [if_neg hy]
      push_neg at hy
      by_cases hc : p.checkbox hd
      · by_cases hx : d = lookupDay days hd
        · have hp : ((lookupDay days hd == d)
              && (yearOf (lookupDay days hd) == yr) && p.checkbox hd) = true := by
            simp [hx, hy, hc]
          rw [hp]
          simp [hc, hx]
          omega
        · have hp : ((lookupDay days hd == d)
              && (yearOf (lookupDay days hd) == yr) && p.checkbox hd) = false := by
            simp [Ne.symm hx]
          rw [hp]
          simp [hc, hx]
      · have hp : ((lookupDay days hd == d)
            && (yearOf (lookupDay days hd) == yr) && p.checkbox hd) = false := by
          simp [hc]
        rw [hp]
        simp [hc]

theorem processPage_total (yr : Nat) (weeks : List Week)
    (acc : (Nat → Nat) × (Nat → Nat)) (p : Page) (d : Nat) :
    (processPage yr weeks acc p).1 d = acc.1 d + pageTotal yr weeks p d := by
  rcases hsel : p.weekSel with _ | wk
  · simp [processPage, pageTotal, hsel]
  · rcases hfind : weeks.find? (fun w => w.weekKey = wk) with _ | w
    · simp [processPage, pageTotal, hsel, hfind]
    · have h1 := foldl_processDay_total yr w.days p DAY_NAMES acc d
      simpa [processPage, pageTotal, hsel, hfind] using h1

theorem processPage_completed (yr : Nat) (weeks : List Week)
    (acc : (Nat → Nat) × (Nat → Nat)) (p : Page) (d : Nat) :
    (processPage yr weeks acc p).2 d = acc.2 d + pageCompleted yr weeks p d := by
  rcases hsel : p.weekSel with _ | wk
  · simp [processPage, pageCompleted, hsel]
  · rcases hfind : weeks.find? (fun w => w.weekKey = wk) with _ | w
    · simp [processPage, pageCompleted, hsel, hfind]
    · have h1 := foldl_processDay_completed yr w.days p DAY_NAMES acc d
      simpa [processPage, pageCompleted, hsel, hfind] using h1

theorem dailyCounters_spec (yr : Nat) (weeks : List Week) (pages : List Page) :
    ∀ (acc : (Nat → Nat) × (Nat → Nat)) (d : Nat),
      ((pages.foldl (processPage yr weeks) acc).1 d
        = acc.1 d + (pages.map (fun p => pageTotal yr weeks p d)).sum) ∧
      ((pages.foldl (processPage yr weeks) acc).2 d
        = acc.2 d + (pages.map (fun p => pageCompleted yr weeks p d)).sum) := by
  induction pages with
  | nil => intro acc d; simp
  | cons hd tl ih =>
    intro acc d
    rw [List.foldl_cons]
    refine ⟨?_, ?_⟩
    · rw [(ih _ d).1, processPage_total]
      simp
      omega
    · rw [(ih _ d).2, processPage_completed]
      simp
      omega

/-- **C7.** Daily score definition: for every page list and every date of
the target year 2026, when the number of metric-columns falling on the date
(the total, aggregated across all pages sharing the date and counting only
member days whose calendar year is 2026) is positive, `compute_daily_scores`
maps the date to `round(completed / total * 100, 1)`; when the total is 0
the date is absent. A date with completed 0 of total 3 scores exactly 0 and
one with completed 3 of total 3 scores exactly 100. -/
theorem daily_score_definition (pages : List Page) (d : Nat)
    (_hd : yearOf d = 2026) :
    (0 < (pages.map (fun p => pageTotal 2026 (get_weeks 2026) p d)).sum →
      compute_daily_scores 2026 pages (get_weeks 2026) d =
        some (round1
          (((pages.map (fun p => pageCompleted 2026 (get_weeks 2026) p d)).sum : ℚ)
            / ((pages.map (fun p => pageTotal 2026 (get_weeks 2026) p d)).sum : ℚ)
            * 100))) ∧
    ((pages.map (fun p => pageTotal 2026 (get_weeks 2026) p d)).sum = 0 →
      compute_daily_scores 2026 pages (get_weeks 2026) d = none) ∧
    round1 ((0 : ℚ) / 3 * 100) = 0 ∧ round1 ((3 : ℚ) / 3 * 100) = 100 := by
  have htot : (dailyCounters 2026 pages (get_weeks 2026)).1 d
      = (pages.map (fun p => pageTotal 2026 (get_weeks 2026) p d)).sum := by
    have := (dailyCounters_spec 2026 (get_weeks 2026) pages
      (fun _ => 0, fun _ => 0) d).1
    simpa [dailyCounters] using this
  have hcom : (dailyCounters 2026 pages (get_weeks 2026)).2 d
      = (pages.map (fun p => pageCompleted 2026 (get_weeks 2026) p d)).sum := by
    have := (dailyCounters_spec 2026 (get_weeks 2026) pages
      (fun _ => 0, fun _ => 0) d).2
    simpa [dailyCounters] using this
  refine ⟨?_, ?_, ?_, ?_⟩
  · intro hpos
    simp only [compute_daily_scores]
    rw [htot, hcom, if_pos hpos]
  · intro hzero
    simp only [compute_daily_scores]
    rw [htot, hzero]
    simp
  · have h0 : ((0 : ℚ) / 3 * 100) * 10 = ((0 : ℤ) : ℚ) := by norm_num
    rw [round1, h0, roundHalfEven_intCast]
    norm_num
  · have h1 : ((3 : ℚ) / 3 * 100) * 10 = ((1000 : ℤ) : ℚ) := by norm_num
    rw [round1, h1, roundHalfEven_intCast]
    norm_num

/-- A sample tracker page in week `W01` with no checked day, used by the
`daily_score_definition` witness. -/
def samplePage : Page :=
  { metricTitle := ["Exercise"], category := none, monthSel := none,
    weekSel := some "W01", weekDates := none, checkboxes := [],
    weeklyTarget := none, streak := none }

set_option maxRecDepth 100000 in
/-- Witness for `daily_score_definition`: three unchecked pages in week
`W01` of 2026 evaluated at Jan 1, 2026 (ordinal 739617), a date with a
positive total. -/
theorem daily_score_definition_witness :
    yearOf 739617 = 2026 ∧
    0 < (([samplePage, samplePage, samplePage] : List Page).map
      (fun p => pageTotal 2026 (get_weeks 2026) p 739617)).sum ∧
    ((0 < (([samplePage, samplePage, samplePage] : List Page).map
        (fun p => pageTotal 2026 (get_weeks 2026) p 739617)).sum →
      compute_daily_scores 2026 [samplePage, samplePage, samplePage]
          (get_weeks 2026) 739617 =
        some (round1
          (((([samplePage, samplePage, samplePage] : List Page).map
              (fun p => pageCompleted 2026 (get_weeks 2026) p 739617)).sum : ℚ)
            / ((([samplePage, samplePage, samplePage] : List Page).map
              (fun p => pageTotal 2026 (get_weeks 2026) p 739617)).sum : ℚ)
            * 100))) ∧
    ((([samplePage, samplePage, samplePage] : List Page).map
        (fun p => pageTotal 2026 (get_weeks 2026) p 739617)).sum = 0 →
      compute_daily_scores 2026 [samplePage, samplePage, samplePage]
        (get_weeks 2026) 739617 = none) ∧
    round1 ((0 : ℚ) / 3 * 100) = 0 ∧ round1 ((3 : ℚ) / 3 * 100) = 100) :=
  ⟨by decide, by decide,
    daily_score_definition [samplePage, samplePage, samplePage] 739617
      (by decide)⟩

/-- One page of a data source as seen by `delete_metric`: its id and the
plain text of its title property (`Name` on the metrics database, `Metric`
on the tracker; the server-side `title equals name` filter matches on it). -/
structure DPage where
  pid : Nat
  title : String
  deriving Repr, DecidableEq

/-- `fetch_all_pages(ds_id, filter)` with a `title equals name` filter: the
paginated query returns every matching page of the store, in store order. -/
def fetch_all_pages (store : List DPage) (name : String) : List DPage :=
  store.filter (fun p => p.title = name)

/-- Outcome of `delete_metric`: metric not found (error, exit 1, nothing
mutated), confirmation declined (`Aborted.`, exit 0, nothing mutated), or
the ordered list of archived page ids. -/
inductive DeleteOutcome where
  | notFound : DeleteOutcome
  | aborted : DeleteOutcome
  | archived : List Nat → DeleteOutcome
  deriving Repr, DecidableEq

/-- `delete_metric(name)` with the interactive confirmation as a boolean
input: fetch the matching metric pages, error out when none exist, fetch
the matching tracker pages, ask for confirmation, then archive the metric
pages followed by the tracker pages. -/
def delete_metric (name : String) (confirm : Bool)
    (metricsStore trackerStore : List DPage) : DeleteOutcome :=
  let metricPages := fetch_all_pages metricsStore name
  if metricPages.isEmpty then .notFound
  else
    let trackerPages := fetch_all_pages trackerStore name
    if confirm then
      .archived (metricPages.map DPage.pid ++ trackerPages.map DPage.pid)
    else .aborted

/-- **C8.** Deletion atomicity: when the metric exists, declining the
confirmation performs zero mutations and exits cleanly, while confirming
archives exactly the matched metric pages followed by the matched tracker
pages — their count is (matched metrics) + (matched trackers), and an id is
archived precisely when some matching page of one of the two stores carries
it — with no further mutations. -/
theorem delete_metric_atomic (name : String)
    (metricsStore trackerStore : List DPage)
    (hfound : fetch_all_pages metricsStore name ≠ []) :
    delete_metric name false metricsStore trackerStore = .aborted ∧
    delete_metric name true metricsStore trackerStore =
      .archived ((fetch_all_pages metricsStore name).map DPage.pid
        ++ (fetch_all_pages trackerStore name).map DPage.pid) ∧
    ((fetch_all_pages metricsStore name).map DPage.pid
        ++ (fetch_all_pages trackerStore name).map DPage.pid).length
      = (fetch_all_pages metricsStore name).length
        + (fetch_all_pages trackerStore name).length ∧
    ∀ i, i ∈ (fetch_all_pages metricsStore name).map DPage.pid
        ++ (fetch_all_pages trackerStore name).map DPage.pid ↔
      ((∃ p ∈ metricsStore, p.title = name ∧ p.pid = i) ∨
       (∃ p ∈ trackerStore, p.title = name ∧ p.pid = i)) := by
  refine ⟨?_, ?_, by simp, ?_⟩
  · simp [delete_metric, List.isEmpty_iff, hfound]
  · simp [delete_metric, List.isEmpty_iff, hfound]
  · intro i
    simp only [List.mem_append, List.mem_map, fetch_all_pages,
      List.mem_filter, decide_eq_true_eq]
    constructor
    · rintro (⟨p, ⟨hp, ht⟩, hi⟩ | ⟨p, ⟨hp, ht⟩, hi⟩)
      · exact Or.inl ⟨p, hp, ht, hi⟩
      · exact Or.inr ⟨p, hp, ht, hi⟩
    · rintro (⟨p, hp, ht, hi⟩ | ⟨p, hp, ht, hi⟩)
      · exact Or.inl ⟨p, ⟨hp, ht⟩, hi⟩
      · exact Or.inr ⟨p, ⟨hp, ht⟩, hi⟩

/-- Witness for `delete_metric_atomic`: deleting `Exercise` against a store
with one matching metric page and two matching tracker pages (plus one
non-matching tracker page). -/
theorem delete_metric_atomic_witness :
    fetch_all_pages [⟨1, "Exercise"⟩] "Exercise" ≠ [] ∧
    delete_metric "Exercise" false [⟨1, "Exercise"⟩]
      [⟨2, "Exercise"⟩, ⟨3, "Exercise"⟩, ⟨4, "Other"⟩] = .aborted ∧
    delete_metric "Exercise" true [⟨1, "Exercise"⟩]
      [⟨2, "Exercise"⟩, ⟨3, "Exercise"⟩, ⟨4, "Other"⟩] =
      .archived ((fetch_all_pages [⟨1, "Exercise"⟩] "Exercise").map DPage.pid
        ++ (fetch_all_pages [⟨2, "Exercise"⟩, ⟨3, "Exercise"⟩, ⟨4, "Other"⟩]
          "Exercise").map DPage.pid) :=
  ⟨by decide,
   (delete_metric_atomic "Exercise" [⟨1, "Exercise"⟩]
     [⟨2, "Exercise"⟩, ⟨3, "Exercise"⟩, ⟨4, "Other"⟩] (by decide)).1,
   (delete_metric_atomic "Exercise" [⟨1, "Exercise"⟩]
     [⟨2, "Exercise"⟩, ⟨3, "Exercise"⟩, ⟨4, "Other"⟩] (by decide)).2.1⟩

/-- Python's `calendar.isleap`. -/
def isLeap (y : Nat) : Bool := y % 4 == 0 && (y % 100 != 0 || y % 400 == 0)

/-- `calendar.monthrange(y, m)[1]`: the number of days of month `m` of year
`y` (months outside 1-12 do not occur in the scripts). -/
def daysInMonth (y m : Nat) : Nat :=
  match m with
  | 1 => 31
  | 2 => if isLeap y then 29 else 28
  | 3 => 31
  | 4 => 30
  | 5 => 31
  | 6 => 30
  | 7 => 31
  | 8 => 31
  | 9 => 30
  | 10 => 31
  | 11 => 30
  | 12 => 31
  | _ => 0

theorem daysInMonth_le_31 (y m : Nat) : daysInMonth y m ≤ 31 := by
  unfold daysInMonth
  split <;> (try split) <;> norm_num

/-- The true entries written into the nested `tracker_data` dict by
`fetch_tracker_data` (the dict only ever stores `True` values): for each
page with a metric title and a month select, the checkbox properties are
looked up under the zero-padded day-of-month keys `f"{d:02d}"` for
`d = 1 .. monthrange(YEAR, month_num)[1]`, and the checked ones are recorded
as `(month, metric, day)` triples. A page whose month name is not in
`MONTHS` contributes nothing (the scripts never create one; `MONTHS.index`
would raise there). -/
def fetch_tracker_data_true (yr : Nat) (pages : List Page) :
    List (String × String × Nat) :=
  pages.flatMap (fun p =>
    match p.metricTitle, p.monthSel with
    | n :: _, some mn =>
      match MONTHS.indexOf? mn with
      | none => []
      | some i =>
        (List.range (daysInMonth yr (i + 1))).filterMap (fun j =>
          if p.checkbox (pad2 (j + 1)) then some (mn, n, j + 1) else none)
    | _, _ => [])

theorem pad2_not_dayName : ∀ j ∈ List.range 31, pad2 (j + 1) ∉ DAY_NAMES := by
  decide

theorem checkbox_false_of_keys (p : Page)
    (hk : ∀ kv ∈ p.checkboxes, kv.1 ∈ DAY_NAMES)
    (k : String) (hknot : k ∉ DAY_NAMES) : p.checkbox k = false := by
  unfold Page.checkbox
  cases hfind : p.checkboxes.find? (fun kv => kv.1 = k) with
  | none => rfl
  | some kv =>
    have hmem := List.mem_of_find?_eq_some hfind
    have hkey : kv.1 = k := by simpa using List.find?_some hfind
    exact absurd (hkey ▸ hk kv hmem) hknot

/-- **C9.** Tracker-widget day-key mismatch: for every page list whose
checkbox properties are keyed only by the day names `Mon` … `Sun` (as every
record created by `populate_tracker` / `add_metric` is, whatever values its
checkboxes were later edited to), the widget's data builder — which looks
checkboxes up under the zero-padded day-of-month keys `"01"` … `"31"` —
finds no checked day, so the nested `tracker_data` mapping contains no true
entry. -/
theorem tracker_widget_day_key_mismatch (pages : List Page)
    (h : ∀ p ∈ pages, ∀ kv ∈ p.checkboxes, kv.1 ∈ DAY_NAMES) :
    fetch_tracker_data_true 2026 pages = [] := by
  unfold fetch_tracker_data_true
  rw [List.flatMap_eq_nil_iff]
  intro p hp
  rcases hT : p.metricTitle with _ | ⟨n, rest⟩
  · simp [hT]
  rcases hM : p.monthSel with _ | mn
  · simp [hT, hM]
  rcases hI : MONTHS.indexOf? mn with _ | i
  · simp [hT, hM, hI]
  simp only [hT, hM, hI]
  rw [List.filterMap_eq_nil_iff]
  intro j hj
  have hlt : j < 31 :=
    lt_of_lt_of_le (List.mem_range.1 hj) (daysInMonth_le_31 2026 (i + 1))
  have hfalse : p.checkbox (pad2 (j + 1)) = false :=
    checkbox_false_of_keys p (h p hp) _
      (pad2_not_dayName j (List.mem_range.2 hlt))
  simp [hfalse]

/-- A tracker page with every day-name checkbox checked, used by the
`tracker_widget_day_key_mismatch` witness. -/
def checkedPage : Page :=
  { metricTitle := ["Exercise"], category := some "Health",
    monthSel := some "January", weekSel := some "W01", weekDates := none,
    checkboxes := DAY_NAMES.map (fun d => (d, true)),
    weeklyTarget := some 5, streak := some 0 }

/-- Witness for `tracker_widget_day_key_mismatch`: a fully-checked page
(all seven day-name checkboxes true) still yields an empty set of true
entries. -/
theorem tracker_widget_day_key_mismatch_witness :
    (∀ p ∈ [checkedPage], ∀ kv ∈ p.checkboxes, kv.1 ∈ DAY_NAMES) ∧
    fetch_tracker_data_true 2026 [checkedPage] = [] :=
  ⟨by decide, tracker_widget_day_key_mismatch [checkedPage] (by decide)⟩

/-- One page of the metrics database as read by `fetch_metrics`: the `Name`
title rich-text contents, the `Category` select (absent property or null
select both `none`), the `Weekly Target` number (absent or null both
`none`), and the `Active` checkbox (`none` when the property is absent). -/
structure MPage where
  nameTitle : List String
  category : Option String
  weeklyTarget : Option Int
  activeProp : Option Bool
  deriving Repr, DecidableEq

/-- `fetch_metrics`: skip pages with an empty title; default a missing
category select to `"Personal"`; `number or 0` turns a missing or null
weekly target into 0; `get("checkbox", True)` treats an absent `Active`
property as active; keep exactly the active pages, in query order. -/
def fetch_metrics (pages : List MPage) : List Metric :=
  pages.filterMap (fun p =>
    match p.nameTitle with
    | [] => none
    | n :: _ =>
      let category := p.category.getD "Personal"
      let target := p.weeklyTarget.getD 0
      let active := p.activeProp.getD true
      if active then some ⟨n, category, target⟩ else none)

/-- **C10.** Metric-fetch defaulting: a metric is returned by
`fetch_metrics` exactly when some queried page has it as first title text
(pages with an empty title are skipped), with category defaulted to
`Personal` when the select is missing, target 0 when the number is missing
or null, and the page counted active unless its `Active` checkbox is
present and false. -/
theorem fetch_metrics_defaults (pages : List MPage) (m : Metric) :
    m ∈ fetch_metrics pages ↔
      ∃ p ∈ pages, (∃ rest, p.nameTitle = m.name :: rest) ∧
        m.category = p.category.getD "Personal" ∧
        m.target = p.weeklyTarget.getD 0 ∧
        p.activeProp.getD true = true := by
  unfold fetch_metrics
  rw [List.mem_filterMap]
  constructor
  · rintro ⟨p, hp, hval⟩
    rcases hT : p.nameTitle with _ | ⟨n, rest⟩
    · rw [hT] at hval
      simp at hval
    · rw [hT] at hval
      dsimp only at hval
      by_cases ha : p.activeProp.getD true = true
      · rw [if_pos ha] at hval
        have hm : m = ⟨n, p.category.getD "Personal", p.weeklyTarget.getD 0⟩ :=
          (Option.some_inj.1 hval).symm
        subst hm
        exact ⟨p, hp, ⟨rest, hT⟩, rfl, rfl, ha⟩
      · rw [if_neg ha] at hval
        simp at hval
  · rintro ⟨p, hp, ⟨rest, hT⟩, hc, ht, ha⟩
    refine ⟨p, hp, ?_⟩
    rw [hT]
    dsimp only
    rw [if_pos ha]
    cases m
    simp only [Metric.mk.injEq] at hc ht ⊢
    exact congrArg some (by simp [hc, ht])

end Tracker
